import Mathlib

/-!
Verification of the financial simulation module `outils_finance.py`.

The Python module computes with IEEE floats; we model its arithmetic over `ℚ`
(exact field arithmetic).  Each source function converts its annual rates once,
at the top, via `(1 + taux_annuel) ** (1/12)`; that real twelfth root is the
only non-field operation in the module, so every function below is
parametrised directly by
  * `m` — the monthly rate `(1 + taux_annuel) ** (1/12) - 1`, and
  * `f` — the monthly inflation coefficient
    `(1 + taux_inflation_annuel) ** (1/12)`,
exactly the two local constants each Python function derives before looping.
Python lists built by successive `append` are modelled by lists kept
most-recent-first (so the running Python `liste[-1]` is the `headD`), and are
reversed on return.  A Python expression that raises `ZeroDivisionError` on
every input of interest is modelled with `Option` (`none` = the exception).
-/

namespace OutilsFinance

/-- Loop state of `calculer_interets_composes`: the running value of the
Python variable `apports_mensuels` plus the four accumulating lists, kept
most-recent-first. -/
structure EtatIC where
  apport : ℚ
  interets : List ℚ
  apports : List ℚ
  capitals : List ℚ
  labels : List ℕ
deriving Repr, DecidableEq

/-- One iteration (month `mois`) of the `for mois in range(...)` loop of
`calculer_interets_composes`: the contribution is deflated first, then either
the month-0 seeding branch or the general recurrence runs. -/
def icStep (m f capital_initial : ℚ) (mois : ℕ) (st : EtatIC) : EtatIC :=
  let apport := st.apport / f
  if mois ≠ 0 then
    let interets_du_mois_en_cours := (st.capitals.headD 0 + st.interets.headD 0) * m
    { apport := apport
      interets := (st.interets.headD 0 + interets_du_mois_en_cours) / f :: st.interets
      apports := apport :: st.apports
      capitals := (st.capitals.headD 0 / f + apport) :: st.capitals
      labels := mois :: st.labels }
  else
    { apport := apport
      interets := 0 :: st.interets
      apports := apport :: st.apports
      capitals := (capital_initial / f + apport) :: st.capitals
      labels := 0 :: st.labels }

/-- The loop of `calculer_interets_composes` run for months `0 .. n-1`,
starting from empty lists and the nominal contribution. -/
def icRun (m f capital_initial apports_mensuels : ℚ) : ℕ → EtatIC
  | 0 =>
    { apport := apports_mensuels, interets := [], apports := [], capitals := [], labels := [] }
  | n + 1 => icStep m f capital_initial n (icRun m f capital_initial apports_mensuels n)

/-- Return bundle of `calculer_interets_composes` (capital series, cumulated
interest series, month labels, deflated contribution series, capital
variation). -/
structure ResultatIC where
  capitals : List ℚ
  interets : List ℚ
  labels : List ℕ
  apports : List ℚ
  variation : ℚ
deriving Repr, DecidableEq

/-- Model of `calculer_interets_composes(taux_rentabilite_annuel,
capital_initial, apports_mensuels, duree_de_simulation_mois,
taux_inflation_annuel)`, parametrised by the derived monthly rate `m` and
inflation coefficient `f`.  The variation is the Python
`capitals_mensuels[-1] - (capital_initial + sum(apports_mensuels_monnaie_actuelle))`,
where `[-1]` is the head of the most-recent-first state list.  For `n = 0`
Python raises `IndexError` on that `[-1]`; the model then reads the `headD`
default, so every statement about this function assumes `n ≥ 1`. -/
def calculer_interets_composes (m f capital_initial apports_mensuels : ℚ) (n : ℕ) :
    ResultatIC :=
  let st := icRun m f capital_initial apports_mensuels n
  { capitals := st.capitals.reverse
    interets := st.interets.reverse
    labels := st.labels.reverse
    apports := st.apports.reverse
    variation := st.capitals.headD 0 - (capital_initial + st.apports.sum) }

/-- Value of the deflated contribution recorded at month `k`: the Python
variable `apports_mensuels` is divided by `f` once per iteration, so after the
iteration of month `k` it holds `c / f ^ (k+1)`. -/
def suiteApport (c f : ℚ) (k : ℕ) : ℚ := c / f ^ (k + 1)

/-- Month-`k` pair (capital, cumulated interest) satisfying the loop
recurrence of `calculer_interets_composes`. -/
def suiteCapitalInterets (m f capital_initial apports : ℚ) : ℕ → ℚ × ℚ
  | 0 => (capital_initial / f + suiteApport apports f 0, 0)
  | k + 1 =>
    let p := suiteCapitalInterets m f capital_initial apports k
    (p.1 / f + suiteApport apports f (k + 1), (p.2 + (p.1 + p.2) * m) / f)

/-- Characterisation of the loop state after `n` iterations: every list holds
the closed sequences, most recent first. -/
lemma icRun_eq (m f C c : ℚ) (n : ℕ) :
    icRun m f C c n =
      { apport := c / f ^ n
        interets := ((List.range n).map (fun k => (suiteCapitalInterets m f C c k).2)).reverse
        apports := ((List.range n).map (suiteApport c f)).reverse
        capitals := ((List.range n).map (fun k => (suiteCapitalInterets m f C c k).1)).reverse
        labels := (List.range n).reverse } := by
  induction n with
  | zero => simp [icRun]
  | succ k ih =>
    rw [icRun, ih]
    cases k with
    | zero =>
      simp [icStep, suiteCapitalInterets, suiteApport, List.range_succ]
    | succ j =>
      simp [icStep, List.range_succ, suiteCapitalInterets, suiteApport, pow_succ, div_div,
        mul_comm]

/-- The returned capital series lists the closed capital sequence in month
order. -/
lemma capitals_eq (m f C c : ℚ) (n : ℕ) :
    (calculer_interets_composes m f C c n).capitals =
      (List.range n).map (fun k => (suiteCapitalInterets m f C c k).1) := by
  simp [calculer_interets_composes, icRun_eq]

/-- The returned cumulated-interest series lists the closed interest sequence
in month order. -/
lemma interets_eq (m f C c : ℚ) (n : ℕ) :
    (calculer_interets_composes m f C c n).interets =
      (List.range n).map (fun k => (suiteCapitalInterets m f C c k).2) := by
  simp [calculer_interets_composes, icRun_eq]

/-- The returned deflated-contribution series lists `c / f ^ (k+1)` in month
order. -/
lemma apports_eq (m f C c : ℚ) (n : ℕ) :
    (calculer_interets_composes m f C c n).apports =
      (List.range n).map (suiteApport c f) := by
  simp [calculer_interets_composes, icRun_eq]

/-- The returned variation compares the last capital entry with the initial
capital plus the deflated contributions. -/
lemma variation_eq (m f C c : ℚ) (j : ℕ) :
    (calculer_interets_composes m f C c (j + 1)).variation =
      (suiteCapitalInterets m f C c j).1 -
        (C + ((List.range (j + 1)).map (suiteApport c f)).sum) := by
  simp [calculer_interets_composes, icRun_eq, List.range_succ, add_comm, List.sum_reverse]

/-- Reading an entry of a mapped range list. -/
lemma getD_range_map {α : Type} :
    ∀ (k : ℕ) (g : ℕ → α) (d : α) (n : ℕ), k < n → ((List.range n).map g).getD k d = g k := by
  intro k
  induction k with
  | zero =>
    intro g d n hn
    obtain ⟨j, rfl⟩ : ∃ j, n = j + 1 := ⟨n - 1, by omega⟩
    simp [List.range_succ_eq_map]
  | succ i ih =>
    intro g d n hn
    obtain ⟨j, rfl⟩ : ∃ j, n = j + 1 := ⟨n - 1, by omega⟩
    rw [List.range_succ_eq_map]
    simp only [List.map_cons, List.map_map, List.getD_cons_succ]
    exact ih (g ∘ Nat.succ) d j (by omega)

/-- C1: for every monthly rate `m`, inflation coefficient `f`, initial capital
`C`, nominal contribution `c` and duration `n ≥ 1`, the series returned by
`calculer_interets_composes` follow the stated recurrence: the deflated
contribution at month `k` is `c / f ^ (k+1)`; `capital_0 = C/f + apport_0` and
`interets_0 = 0`; for `k > 0`,
`interets_k = (interets_(k-1) + (capital_(k-1) + interets_(k-1)) * m) / f` and
`capital_k = capital_(k-1) / f + apport_k`; and the returned variation is
`capital_(n-1) - (C + somme des apports)`. -/
theorem interets_composes_recurrence (m f C c : ℚ) (n : ℕ) (hn : 1 ≤ n)
    (caps ints apps : List ℚ) (labs : List ℕ) (var : ℚ)
    (h : calculer_interets_composes m f C c n = ⟨caps, ints, labs, apps, var⟩) :
    caps.length = n ∧ ints.length = n ∧ apps.length = n ∧
    (∀ k, k < n → apps.getD k 0 = c / f ^ (k + 1)) ∧
    caps.getD 0 0 = C / f + apps.getD 0 0 ∧
    ints.getD 0 0 = 0 ∧
    (∀ k, 0 < k → k < n →
      ints.getD k 0 =
        (ints.getD (k - 1) 0 + (caps.getD (k - 1) 0 + ints.getD (k - 1) 0) * m) / f ∧
      caps.getD k 0 = caps.getD (k - 1) 0 / f + apps.getD k 0) ∧
    var = caps.getD (n - 1) 0 - (C + apps.sum) := by
  obtain ⟨j, rfl⟩ : ∃ j, n = j + 1 := ⟨n - 1, by omega⟩
  have hcaps : caps = (List.range (j + 1)).map (fun k => (suiteCapitalInterets m f C c k).1) := by
    rw [← capitals_eq m f C c (j + 1), h]
  have hints : ints = (List.range (j + 1)).map (fun k => (suiteCapitalInterets m f C c k).2) := by
    rw [← interets_eq m f C c (j + 1), h]
  have happs : apps = (List.range (j + 1)).map (suiteApport c f) := by
    rw [← apports_eq m f C c (j + 1), h]
  have hvar : var = (calculer_interets_composes m f C c (j + 1)).variation := by rw [h]
  subst hcaps hints happs
  refine ⟨by simp, by simp, by simp, ?_, ?_, ?_, ?_, ?_⟩
  · intro k hk
    rw [getD_range_map k _ 0 _ hk]
    rfl
  · rw [getD_range_map 0 _ 0 _ (by omega), getD_range_map 0 _ 0 _ (by omega)]
    rfl
  · rw [getD_range_map 0 _ 0 _ (by omega)]
    rfl
  · intro k hk0 hk
    obtain ⟨i, rfl⟩ : ∃ i, k = i + 1 := ⟨k - 1, by omega⟩
    rw [getD_range_map (i + 1) _ 0 _ hk, getD_range_map (i + 1) _ 0 _ hk,
      getD_range_map (i + 1) _ 0 _ hk]
    have hi : i + 1 - 1 < j + 1 := by omega
    rw [getD_range_map (i + 1 - 1) _ 0 _ hi, getD_range_map (i + 1 - 1) _ 0 _ hi]
    simp only [Nat.add_sub_cancel]
    exact ⟨rfl, rfl⟩
  · rw [hvar, variation_eq]
    rw [getD_range_map (j + 1 - 1) _ 0 _ (by omega)]
    simp only [Nat.add_sub_cancel]

/-- Witness for C1 at `m = 0`, `f = 1`, `C = 1`, `c = 0`, `n = 1`. -/
theorem interets_composes_recurrence_temoin :
    [(1 : ℚ)].length = 1 ∧ [(0 : ℚ)].length = 1 ∧ [(0 : ℚ)].length = 1 ∧
    (∀ k, k < 1 → [(0 : ℚ)].getD k 0 = 0 / 1 ^ (k + 1)) ∧
    [(1 : ℚ)].getD 0 0 = 1 / 1 + [(0 : ℚ)].getD 0 0 ∧
    [(0 : ℚ)].getD 0 0 = 0 ∧
    (∀ k, 0 < k → k < 1 →
      [(0 : ℚ)].getD k 0 =
        ([(0 : ℚ)].getD (k - 1) 0 +
          ([(1 : ℚ)].getD (k - 1) 0 + [(0 : ℚ)].getD (k - 1) 0) * 0) / 1 ∧
      [(1 : ℚ)].getD k 0 = [(1 : ℚ)].getD (k - 1) 0 / 1 + [(0 : ℚ)].getD k 0) ∧
    (0 : ℚ) = [(1 : ℚ)].getD (1 - 1) 0 - (1 + [(0 : ℚ)].sum) :=
  interets_composes_recurrence 0 1 1 0 1 (by norm_num) [1] [0] [0] [0] 0
    (by norm_num [calculer_interets_composes, icRun, icStep])

/-- Loop state of `simuler_credit`: the running interest total and the four
accumulating lists, kept most-recent-first.  The Python local `mensualite` is
recomputed from `capital_restant_par_mois[-1]` at every iteration and never
read across iterations; its pre-loop value is returned separately (see
`premiereMensualite`) and its per-month values are exposed as
`mensualiteMois`. -/
structure EtatCredit where
  cout : ℚ
  rembourse : List ℚ
  restant : List ℚ
  interets : List ℚ
  labels : List ℕ
deriving Repr, DecidableEq

/-- The fixed installment computed once before the loop of `simuler_credit`:
`montant * taux_mensuel * (1+taux_mensuel)^N / ((1+taux_mensuel)^N - 1)`. -/
def premiereMensualite (m P : ℚ) (N : ℕ) : ℚ :=
  P * m * (1 + m) ^ N / ((1 + m) ^ N - 1)

/-- One iteration (month `mois`) of the loop of `simuler_credit`. -/
def credStep (m f : ℚ) (N mois : ℕ) (st : EtatCredit) : EtatCredit :=
  let mensualite :=
    st.restant.headD 0 * m * (1 + m) ^ (N - mois) / ((1 + m) ^ (N - mois) - 1)
  let interet_du_mois := st.restant.headD 0 * m / f
  let capital_rembourse_du_mois := mensualite - interet_du_mois
  { cout := st.cout + interet_du_mois
    rembourse := capital_rembourse_du_mois :: st.rembourse
    restant := (st.restant.headD 0 / f - capital_rembourse_du_mois) :: st.restant
    interets := interet_du_mois :: st.interets
    labels := mois :: st.labels }

/-- The loop of `simuler_credit` run for months `0 .. n-1`, starting from the
seeded lists `[0]`, `[montant_emprunte_total]`, `[0]`, `[0]`. -/
def credRun (m f P : ℚ) (N : ℕ) : ℕ → EtatCredit
  | 0 => { cout := 0, rembourse := [0], restant := [P], interets := [0], labels := [0] }
  | n + 1 => credStep m f N n (credRun m f P N n)

/-- Return bundle of `simuler_credit` (first installment, total interest cost,
principal repaid, remaining balance, monthly interest and month labels). -/
structure ResultatCredit where
  premiere : ℚ
  cout : ℚ
  rembourse : List ℚ
  restant : List ℚ
  interets : List ℚ
  labels : List ℕ
deriving Repr, DecidableEq

/-- Model of `simuler_credit(montant_emprunte_total, nombre_mensualites,
taux_annuel, taux_inflation_annuel)` parametrised by the derived monthly rate
`m` and inflation coefficient `f`.  The Python `pop(0)` calls remove the
seeding entries, which sit last in our most-recent-first state lists. -/
def simuler_credit (m f P : ℚ) (N : ℕ) : ResultatCredit :=
  let st := credRun m f P N N
  { premiere := premiereMensualite m P N
    cout := st.cout
    rembourse := st.rembourse.dropLast.reverse
    restant := st.restant.dropLast.reverse
    interets := st.interets.dropLast.reverse
    labels := st.labels.dropLast.reverse }

/-- Remaining balance before the iteration of month `k` (so `solde 0 = P`),
satisfying the loop recurrence of `simuler_credit`. -/
def solde (m f P : ℚ) (N : ℕ) : ℕ → ℚ
  | 0 => P
  | k + 1 =>
    let s := solde m f P N k
    let mensualite := s * m * (1 + m) ^ (N - k) / ((1 + m) ^ (N - k) - 1)
    let interet_du_mois := s * m / f
    s / f - (mensualite - interet_du_mois)

/-- Payment recomputed during the iteration of month `k` (0-indexed). -/
def mensualiteMois (m f P : ℚ) (N k : ℕ) : ℚ :=
  solde m f P N k * m * (1 + m) ^ (N - k) / ((1 + m) ^ (N - k) - 1)

/-- Interest recorded during the iteration of month `k` (0-indexed). -/
def interetMois (m f P : ℚ) (N k : ℕ) : ℚ := solde m f P N k * m / f

/-- Principal repaid during the iteration of month `k` (0-indexed). -/
def rembourseMois (m f P : ℚ) (N k : ℕ) : ℚ :=
  mensualiteMois m f P N k - interetMois m f P N k

/-- Characterisation of the credit loop state after `n` iterations. -/
lemma credRun_eq (m f P : ℚ) (N : ℕ) : ∀ n,
    credRun m f P N n =
      { cout := ((List.range n).map (interetMois m f P N)).sum
        rembourse := ((List.range n).map (rembourseMois m f P N)).reverse ++ [0]
        restant := ((List.range (n + 1)).map (solde m f P N)).reverse
        interets := ((List.range n).map (interetMois m f P N)).reverse ++ [0]
        labels := (List.range n).reverse ++ [0] } := by
  intro n
  induction n with
  | zero => simp [credRun, solde, List.range_succ]
  | succ k ih =>
    rw [credRun, ih]
    simp only [credStep, rembourseMois, mensualiteMois, interetMois, solde,
      List.range_succ, List.map_append, List.reverse_append, List.sum_append,
      List.map_cons, List.map_nil, List.reverse_cons, List.reverse_nil,
      List.nil_append, List.cons_append, List.headD_cons, List.sum_cons, List.sum_nil,
      EtatCredit.mk.injEq]
    exact ⟨by ring, trivial, trivial, trivial, trivial⟩

/-- The returned principal-repaid series lists `rembourseMois` in month
order. -/
lemma simuler_rembourse_eq (m f P : ℚ) (N : ℕ) :
    (simuler_credit m f P N).rembourse = (List.range N).map (rembourseMois m f P N) := by
  simp [simuler_credit, credRun_eq]

/-- The returned remaining-balance series lists `solde (k+1)` in month
order. -/
lemma simuler_restant_eq (m f P : ℚ) (N : ℕ) :
    (simuler_credit m f P N).restant =
      (List.range N).map (fun k => solde m f P N (k + 1)) := by
  have h : (List.range (N + 1)).map (solde m f P N) =
      solde m f P N 0 :: (List.range N).map (fun k => solde m f P N (k + 1)) := by
    rw [List.range_succ_eq_map]
    simp [List.map_map, Function.comp_def]
  simp [simuler_credit, credRun_eq, h]

/-- The returned monthly-interest series lists `interetMois` in month
order. -/
lemma simuler_interets_eq (m f P : ℚ) (N : ℕ) :
    (simuler_credit m f P N).interets = (List.range N).map (interetMois m f P N) := by
  simp [simuler_credit, credRun_eq]

/-- The returned month labels are `0 .. N-1`. -/
lemma simuler_labels_eq (m f P : ℚ) (N : ℕ) :
    (simuler_credit m f P N).labels = List.range N := by
  simp [simuler_credit, credRun_eq]

/-- The returned total interest cost accumulates exactly the per-month
interest values. -/
lemma simuler_cout_eq (m f P : ℚ) (N : ℕ) :
    (simuler_credit m f P N).cout = ((List.range N).map (interetMois m f P N)).sum := by
  simp [simuler_credit, credRun_eq]

/-- C2: for every principal `P`, term `N ≥ 1`, nonzero monthly rate `m` and
inflation coefficient `f`, `simuler_credit` returns series of length `N`
(the synthetic month-0 seed excluded) following, at 0-indexed entry `k`
(1-indexed month `k+1`) with previous balance `P` for `k = 0`:
interest `= prev * m / f`, principal repaid
`= prev * m * (1+m)^(N-k) / ((1+m)^(N-k) - 1) - interest` (the recomputed
payment minus the interest; `N-k` is what the claim writes `N-j+1` at 1-indexed month
`j = k+1`), new balance `= prev / f - principal`, and the separately returned
first payment is the fixed-installment formula over the full term. -/
theorem simuler_credit_recurrence (m f P : ℚ) (N : ℕ) (hm : m ≠ 0) (hN : 1 ≤ N)
    (prem cout : ℚ) (remb rest ints : List ℚ) (labs : List ℕ)
    (h : simuler_credit m f P N = ⟨prem, cout, remb, rest, ints, labs⟩) :
    remb.length = N ∧ rest.length = N ∧ ints.length = N ∧ labs.length = N ∧
    prem = P * m * (1 + m) ^ N / ((1 + m) ^ N - 1) ∧
    (∀ k, k < N →
      ints.getD k 0 = (if k = 0 then P else rest.getD (k - 1) 0) * m / f ∧
      remb.getD k 0 =
        (if k = 0 then P else rest.getD (k - 1) 0) * m * (1 + m) ^ (N - k) /
            ((1 + m) ^ (N - k) - 1) - ints.getD k 0 ∧
      rest.getD k 0 = (if k = 0 then P else rest.getD (k - 1) 0) / f - remb.getD k 0) := by
  have hremb : remb = (List.range N).map (rembourseMois m f P N) := by
    rw [← simuler_rembourse_eq m f P N, h]
  have hrest : rest = (List.range N).map (fun k => solde m f P N (k + 1)) := by
    rw [← simuler_restant_eq m f P N, h]
  have hints : ints = (List.range N).map (interetMois m f P N) := by
    rw [← simuler_interets_eq m f P N, h]
  have hlabs : labs = List.range N := by
    rw [← simuler_labels_eq m f P N, h]
  have hprem : prem = premiereMensualite m P N := by
    have := congrArg ResultatCredit.premiere h
    simpa [simuler_credit] using this.symm
  subst hremb hrest hints hlabs
  refine ⟨by simp, by simp, by simp, by simp, hprem, ?_⟩
  intro k hk
  have hprev : (if k = 0 then P else
      ((List.range N).map (fun i => solde m f P N (i + 1))).getD (k - 1) 0) =
      solde m f P N k := by
    rcases Nat.eq_zero_or_pos k with hk0 | hk0
    · subst hk0
      simp [solde]
    · rw [if_neg (by omega), getD_range_map (k - 1) _ 0 _ (by omega)]
      congr 1
      omega
  rw [getD_range_map k _ 0 _ hk, getD_range_map k _ 0 _ hk, getD_range_map k _ 0 _ hk,
    hprev]
  refine ⟨rfl, rfl, ?_⟩
  show solde m f P N (k + 1) = _
  rw [solde]
  rfl

/-- Witness for C2 at `m = 1`, `f = 1`, `P = 1`, `N = 1`. -/
theorem simuler_credit_recurrence_temoin :
    [(1 : ℚ)].length = 1 ∧ [(0 : ℚ)].length = 1 ∧ [(1 : ℚ)].length = 1 ∧
    [(0 : ℕ)].length = 1 ∧
    (2 : ℚ) = 1 * 1 * (1 + 1) ^ 1 / ((1 + 1) ^ 1 - 1) ∧
    (∀ k, k < 1 →
      [(1 : ℚ)].getD k 0 = (if k = 0 then 1 else [(0 : ℚ)].getD (k - 1) 0) * 1 / 1 ∧
      [(1 : ℚ)].getD k 0 =
        (if k = 0 then 1 else [(0 : ℚ)].getD (k - 1) 0) * 1 * (1 + 1) ^ (1 - k) /
            ((1 + 1) ^ (1 - k) - 1) - [(1 : ℚ)].getD k 0 ∧
      [(0 : ℚ)].getD k 0 =
        (if k = 0 then 1 else [(0 : ℚ)].getD (k - 1) 0) / 1 - [(1 : ℚ)].getD k 0) :=
  simuler_credit_recurrence 1 1 1 1 (by norm_num) (by norm_num) 2 1 [1] [0] [1] [0]
    (by norm_num [simuler_credit, credRun, credStep, premiereMensualite])

/-- C10: the total interest cost returned by `simuler_credit` is exactly the
sum of the entries of the monthly-interest series it returns. -/
theorem cout_total_egal_somme_interets (m f P : ℚ) (N : ℕ) (hm : m ≠ 0) (hN : 1 ≤ N) :
    (simuler_credit m f P N).cout = (simuler_credit m f P N).interets.sum := by
  rw [simuler_cout_eq, simuler_interets_eq]

/-- Witness for C10 at `m = 1`, `f = 1`, `P = 1`, `N = 1`. -/
theorem cout_total_egal_somme_interets_temoin :
    (simuler_credit 1 1 1 1).cout = (simuler_credit 1 1 1 1).interets.sum :=
  cout_total_egal_somme_interets 1 1 1 1 (by norm_num) (by norm_num)

/-- A positive base different from 1 has no power equal to 1 (positive
exponent). -/
lemma pow_ne_un (u : ℚ) (hu : 0 < u) (hu1 : u ≠ 1) : ∀ j, j ≠ 0 → u ^ j ≠ 1 := by
  intro j hj
  rcases lt_or_gt_of_ne hu1 with h | h
  · exact ne_of_lt (pow_lt_one hu.le h hj)
  · exact ne_of_gt (one_lt_pow h hj)

/-- Closed form of the remaining balance under zero inflation: the balance
before month `k` is `P * (u^N - u^k) / (u^N - 1)` with `u = 1 + m`. -/
lemma solde_forme_close (m P : ℚ) (N : ℕ) (hm : m ≠ 0) (hu : 0 < 1 + m) (hN : 1 ≤ N) :
    ∀ k, k ≤ N →
      solde m 1 P N k = P * ((1 + m) ^ N - (1 + m) ^ k) / ((1 + m) ^ N - 1) := by
  have hu1 : (1 + m) ≠ 1 := fun hc => hm (by linarith)
  have hN0 : (1 + m) ^ N - 1 ≠ 0 := sub_ne_zero.mpr (pow_ne_un _ hu hu1 N (by omega))
  intro k
  induction k with
  | zero =>
    intro _
    rw [solde]
    field_simp
  | succ i ih =>
    intro hiN
    have hjne : N - i ≠ 0 := by omega
    have hd2 : (1 + m) ^ (N - i) - 1 ≠ 0 := sub_ne_zero.mpr (pow_ne_un _ hu hu1 _ hjne)
    have hsplit : (1 + m) ^ N = (1 + m) ^ i * (1 + m) ^ (N - i) := by
      rw [← pow_add]
      congr 1
      omega
    simp only [solde]
    rw [ih (by omega)]
    rw [hsplit] at hN0 ⊢
    rw [pow_succ]
    field_simp
    ring

/-- Under zero inflation the principal repaid in month `k` is exactly the
balance decrease. -/
lemma rembourseMois_sans_inflation (m P : ℚ) (N k : ℕ) :
    rembourseMois m 1 P N k = solde m 1 P N k - solde m 1 P N (k + 1) := by
  simp only [rembourseMois, mensualiteMois, interetMois, solde]
  ring

/-- Telescoping sum over an initial range. -/
lemma somme_telescopique (g : ℕ → ℚ) : ∀ n,
    ((List.range n).map (fun k => g k - g (k + 1))).sum = g 0 - g n := by
  intro n
  induction n with
  | zero => simp
  | succ i ih =>
    rw [List.range_succ]
    simp [ih]

/-- C8: under zero inflation, every recomputed monthly payment equals the
returned fixed first installment, the remaining balance after the final month
is exactly 0, and the principal-repaid series sums exactly to the principal
(exact rational arithmetic, hence inside any floating tolerance). -/
theorem simuler_credit_sans_inflation (m P : ℚ) (N : ℕ)
    (hm : m ≠ 0) (hu : 0 < 1 + m) (hN : 1 ≤ N) :
    (∀ k, k < N → mensualiteMois m 1 P N k = (simuler_credit m 1 P N).premiere) ∧
    (simuler_credit m 1 P N).restant.getD (N - 1) 0 = 0 ∧
    (simuler_credit m 1 P N).rembourse.sum = P := by
  have hu1 : (1 + m) ≠ 1 := fun hc => hm (by linarith)
  have hN0 : (1 + m) ^ N - 1 ≠ 0 := sub_ne_zero.mpr (pow_ne_un _ hu hu1 N (by omega))
  have hsolN : solde m 1 P N N = 0 := by
    rw [solde_forme_close m P N hm hu hN N le_rfl]
    simp
  refine ⟨?_, ?_, ?_⟩
  · intro k hk
    have hjne : N - k ≠ 0 := by omega
    have hd2 : (1 + m) ^ (N - k) - 1 ≠ 0 := sub_ne_zero.mpr (pow_ne_un _ hu hu1 _ hjne)
    have hsplit : (1 + m) ^ N = (1 + m) ^ k * (1 + m) ^ (N - k) := by
      rw [← pow_add]
      congr 1
      omega
    show mensualiteMois m 1 P N k = premiereMensualite m P N
    rw [mensualiteMois, premiereMensualite, solde_forme_close m P N hm hu hN k (by omega)]
    rw [hsplit] at hN0 ⊢
    field_simp
    ring
  · rw [simuler_restant_eq, getD_range_map (N - 1) _ 0 _ (by omega)]
    have : N - 1 + 1 = N := by omega
    rw [this, hsolN]
  · rw [simuler_rembourse_eq]
    have hfun : rembourseMois m 1 P N = fun k => solde m 1 P N k - solde m 1 P N (k + 1) :=
      funext fun k => rembourseMois_sans_inflation m P N k
    rw [hfun, somme_telescopique (solde m 1 P N) N, hsolN]
    simp [solde]

/-- Witness for C8 at `m = 1`, `P = 1`, `N = 1`. -/
theorem simuler_credit_sans_inflation_temoin :
    (∀ k, k < 1 → mensualiteMois 1 1 1 1 k = (simuler_credit 1 1 1 1).premiere) ∧
    (simuler_credit 1 1 1 1).restant.getD (1 - 1) 0 = 0 ∧
    (simuler_credit 1 1 1 1).rembourse.sum = 1 :=
  simuler_credit_sans_inflation 1 1 1 (by norm_num) (by norm_num) (by norm_num)

/-- Model of `calculer_capital(mensualite, taux_annuel, duree_en_mois)`,
parametrised by the monthly rate `m = (1 + taux_annuel) ** (1/12) - 1`.  The
Python body divides by `taux_mensuel` with no zero-rate branch, so a zero
monthly rate raises `ZeroDivisionError`, modelled as `none`. -/
def calculer_capital (m mensualite : ℚ) (duree_en_mois : ℕ) : Option ℚ :=
  if m = 0 then none
  else some (mensualite * (1 - (1 + m) ^ (-(duree_en_mois : ℤ))) / m)

/-- C5 counterexample: at annual rate 0 the monthly rate is exactly 0 and
`calculer_capital` hits the division by zero (a `ZeroDivisionError`, modelled
as `none`); it does not return `payment * N` — here `100 * 12`. -/
theorem calculer_capital_taux_zero_contre_exemple :
    calculer_capital 0 100 12 = none ∧ calculer_capital 0 100 12 ≠ some (100 * 12) := by
  rw [calculer_capital, if_pos rfl]
  exact ⟨rfl, fun hc => Option.noConfusion hc⟩

/-- C5 amended: for every payment and term, `calculer_capital` at zero monthly
rate fails with a division by zero (returns `none`); the zero-rate case is not
special-cased and `payment * N` is never returned. -/
theorem calculer_capital_taux_zero (p : ℚ) (N : ℕ) : calculer_capital 0 p N = none := by
  rw [calculer_capital, if_pos rfl]

/-- C7: feeding the capital returned by `calculer_capital` into
`simuler_credit` with the same nonzero monthly rate and term (zero inflation)
returns exactly the original payment as the first installment (exact rational
arithmetic). -/
theorem capital_et_credit_inverses (m p cap : ℚ) (N : ℕ)
    (hm : m ≠ 0) (hu : 0 < 1 + m) (hN : 1 ≤ N)
    (h : calculer_capital m p N = some cap) :
    (simuler_credit m 1 cap N).premiere = p := by
  rw [calculer_capital, if_neg hm] at h
  have hcap : cap = p * (1 - (1 + m) ^ (-(N : ℤ))) / m := by
    injection h with h
    exact h.symm
  subst hcap
  have hu1 : (1 + m) ≠ 1 := fun hc => hm (by linarith)
  have hune : (1 + m) ≠ 0 := ne_of_gt hu
  have hN0 : (1 + m) ^ N - 1 ≠ 0 :=
    sub_ne_zero.mpr (pow_ne_un _ hu hu1 N (by omega))
  show premiereMensualite m _ N = p
  rw [premiereMensualite, zpow_neg, zpow_natCast]
  have hpN : (1 + m) ^ N ≠ 0 := pow_ne_zero N hune
  field_simp
  ring

/-- Witness for C7 at `m = 1`, `p = 1`, `N = 1` (so the affordable capital is
`1/2`). -/
theorem capital_et_credit_inverses_temoin :
    (simuler_credit 1 1 (1 * (1 - (1 + 1) ^ (-(1 : ℤ))) / 1) 1).premiere = 1 :=
  capital_et_credit_inverses 1 1 (1 * (1 - (1 + 1) ^ (-(1 : ℤ))) / 1) 1
    (by norm_num) (by norm_num) (by norm_num)
    (by rw [calculer_capital, if_neg (by norm_num)]; norm_num)

/-- With zero inflation and zero contribution the capital component stays at
`C` and the cumulated interest grows as `C * ((1+m)^k - 1)`. -/
lemma suiteCapitalInterets_sans_inflation (m C : ℚ) : ∀ k,
    suiteCapitalInterets m 1 C 0 k = (C, C * ((1 + m) ^ k - 1)) := by
  intro k
  induction k with
  | zero => simp [suiteCapitalInterets, suiteApport]
  | succ i ih =>
    simp only [suiteCapitalInterets, ih, suiteApport, Prod.mk.injEq]
    constructor
    · norm_num
    · ring

/-- C4 counterexample: with zero inflation, zero contribution, monthly rate
`1/100`, initial capital `10000` and `2` months, the month-1 entry of the
returned capital series is `10000`, not `10000 * 1.01` — off by far more than
the claimed `1e-9` relative tolerance (the capital series alone stays
constant; growth is carried by the separate interest series). -/
theorem interets_composes_capital_contre_exemple :
    |(calculer_interets_composes (1/100) 1 10000 0 2).capitals.getD 1 0 -
        10000 * (1 + 1/100) ^ 1| >
      1/1000000000 * (10000 * (1 + 1/100) ^ 1) := by
  have h : (calculer_interets_composes (1/100) 1 10000 0 2).capitals.getD 1 0 = 10000 := by
    norm_num [calculer_interets_composes, icRun, icStep]
  rw [h, abs_of_nonpos (by norm_num)]
  norm_num

/-- C4 amended: with zero inflation and zero contribution the sum of the
returned capital and cumulated-interest entries at month `k` equals
`C * (1+m)^k` exactly (the capital series alone stays constant at `C`); in
particular, for the 6%-annual scenario (any positive monthly rate `m` with
`(1+m)^12` within `[1.0599, 1.0601]`, which holds for
`m = 1.06^(1/12) - 1`), after 120 months the final capital-plus-interest is
within 1% of `17908.48`. -/
theorem interets_composes_sans_inflation :
    (∀ (m C : ℚ) (N k : ℕ), k < N →
      (calculer_interets_composes m 1 C 0 N).capitals.getD k 0 +
        (calculer_interets_composes m 1 C 0 N).interets.getD k 0 = C * (1 + m) ^ k) ∧
    (∀ m : ℚ, 0 < m → 10599/10000 ≤ (1 + m) ^ 12 → (1 + m) ^ 12 ≤ 10601/10000 →
      |(calculer_interets_composes m 1 10000 0 120).capitals.getD 119 0 +
          (calculer_interets_composes m 1 10000 0 120).interets.getD 119 0 - 1790848/100|
        ≤ 1790848/100 * (1/100)) := by
  have loi : ∀ (m C : ℚ) (N k : ℕ), k < N →
      (calculer_interets_composes m 1 C 0 N).capitals.getD k 0 +
        (calculer_interets_composes m 1 C 0 N).interets.getD k 0 = C * (1 + m) ^ k := by
    intro m C N k hk
    rw [capitals_eq, interets_eq, getD_range_map k _ 0 _ hk, getD_range_map k _ 0 _ hk,
      suiteCapitalInterets_sans_inflation]
    ring
  refine ⟨loi, ?_⟩
  intro m h0 hlo hhi
  have hu0 : (0 : ℚ) < 1 + m := by linarith
  have hu1 : (1 : ℚ) ≤ 1 + m := by linarith
  have hub : 1 + m ≤ 1005/1000 := by
    by_contra hc
    push_neg at hc
    have : (1005/1000 : ℚ) ^ 12 < (1 + m) ^ 12 :=
      pow_lt_pow_left hc (by norm_num) (by norm_num)
    have : (10601/10000 : ℚ) < (1 + m) ^ 12 := by
      calc (10601/10000 : ℚ) < (1005/1000 : ℚ) ^ 12 := by norm_num
        _ < (1 + m) ^ 12 := this
    linarith
  have h120lo : (10599/10000 : ℚ) ^ 10 ≤ (1 + m) ^ 120 := by
    rw [show (120 : ℕ) = 12 * 10 from rfl, pow_mul]
    exact pow_le_pow_left (by norm_num) hlo 10
  have h120hi : (1 + m) ^ 120 ≤ (10601/10000 : ℚ) ^ 10 := by
    rw [show (120 : ℕ) = 12 * 10 from rfl, pow_mul]
    exact pow_le_pow_left (by positivity) hhi 10
  have h119 : (1 + m) ^ 119 = (1 + m) ^ 120 / (1 + m) := by
    rw [eq_div_iff (ne_of_gt hu0), ← pow_succ]
  have hlo119 : (10599/10000 : ℚ) ^ 10 / (1005/1000) ≤ (1 + m) ^ 119 := by
    rw [h119]
    exact div_le_div (by positivity) h120lo hu0 hub
  have hhi119 : (1 + m) ^ 119 ≤ (10601/10000 : ℚ) ^ 10 := by
    rw [h119]
    calc (1 + m) ^ 120 / (1 + m) ≤ (1 + m) ^ 120 / 1 :=
          div_le_div (by positivity) le_rfl (by norm_num) hu1
      _ = (1 + m) ^ 120 := by rw [div_one]
      _ ≤ (10601/10000 : ℚ) ^ 10 := h120hi
  have hx : (17802/10000 : ℚ) ≤ (1 + m) ^ 119 :=
    le_trans (by norm_num) hlo119
  have hy : (1 + m) ^ 119 ≤ (17926/10000 : ℚ) :=
    le_trans hhi119 (by norm_num)
  rw [loi m 10000 120 119 (by norm_num)]
  rw [abs_le]
  constructor
  · linarith
  · linarith

/-- Witness for C4: the growth law at `m = 1`, `C = 1`, `N = 1`, `k = 0`, and
the concrete 6% scenario at the rational monthly rate `m = 0.0048676`. -/
theorem interets_composes_sans_inflation_temoin :
    ((calculer_interets_composes 1 1 1 0 1).capitals.getD 0 0 +
      (calculer_interets_composes 1 1 1 0 1).interets.getD 0 0 = 1 * (1 + 1) ^ 0) ∧
    |(calculer_interets_composes (48676/10000000) 1 10000 0 120).capitals.getD 119 0 +
        (calculer_interets_composes (48676/10000000) 1 10000 0 120).interets.getD 119 0 -
        1790848/100| ≤ 1790848/100 * (1/100) :=
  ⟨interets_composes_sans_inflation.1 1 1 1 0 (by norm_num),
   interets_composes_sans_inflation.2 (48676/10000000) (by norm_num) (by norm_num)
     (by norm_num)⟩

/-- Coefficient list built by `correcteur_inflation` after `t` appends: the
nested year/month loops visit months `1 .. 12*Y - 1` in order and append
`coefficients[-1] * coefficient_inflation_mensuel` each time (list kept
most-recent-first, seeded with `[1]`). -/
def corrBoucle (coeff : ℚ) : ℕ → List ℚ
  | 0 => [1]
  | t + 1 => ((corrBoucle coeff t).headD 0 * coeff) :: corrBoucle coeff t

/-- Model of `correcteur_inflation(taux_annuel, duree_de_simulation_en_annees)`,
parametrised by the twelfth root `u = (1 + taux_annuel) ** (1/12)`: the Python
body sets `coefficient_inflation_mensuel = 2 - (1 + taux_annuel) ** (1/12)`
(a multiplier, not a divisor) and builds `12*Y` coefficients together with
month labels `0 .. 12*Y - 1`. -/
def correcteur_inflation (u : ℚ) (Y : ℕ) : List ℚ × List ℕ :=
  ((corrBoucle (2 - u) (12 * Y - 1)).reverse, 0 :: List.range' 1 (12 * Y - 1))

/-- Characterisation of the coefficient loop: powers of the multiplier, most
recent first. -/
lemma corrBoucle_eq (c : ℚ) : ∀ t,
    corrBoucle c t = ((List.range (t + 1)).map (fun k => c ^ k)).reverse := by
  intro t
  induction t with
  | zero => simp [corrBoucle, List.range_succ]
  | succ i ih =>
    rw [corrBoucle, ih]
    simp [List.range_succ, pow_succ]

/-- C6 counterexample: at `u = (1 + r)^(1/12) = 1.01` (annual inflation
`r = 1.01^12 - 1`), the month-1 coefficient is `2 - 1.01 = 0.99`, not the
claimed divisor power `(1/1.01)^1 = 100/101`. -/
theorem correcteur_inflation_contre_exemple :
    (correcteur_inflation (101/100) 1).1.getD 1 0 = 99/100 ∧
    (correcteur_inflation (101/100) 1).1.getD 1 0 ≠ (1 / (101/100)) ^ 1 := by
  have h : (correcteur_inflation (101/100) 1).1.getD 1 0 = 99/100 := by
    norm_num [correcteur_inflation, corrBoucle]
  rw [h]
  norm_num

/-- C6 amended: the coefficient table multiplies by
`2 - (1 + r)^(1/12)` (one minus the monthly rate, a linear approximation of
the erosion divisor) each month, so for every `Y ≥ 1` and `k < 12*Y` the
`k`-th entry equals `(2 - u)^k` with `u = (1 + r)^(1/12)` — not `(1/u)^k`. -/
theorem correcteur_inflation_coefficients (u : ℚ) (Y k : ℕ)
    (hY : 1 ≤ Y) (hk : k < 12 * Y) :
    (correcteur_inflation u Y).1.getD k 0 = (2 - u) ^ k := by
  show ((corrBoucle (2 - u) (12 * Y - 1)).reverse).getD k 0 = _
  rw [corrBoucle_eq, List.reverse_reverse, show 12 * Y - 1 + 1 = 12 * Y from by omega]
  exact getD_range_map k _ 0 _ hk

/-- Witness for C6 at `u = 3`, `Y = 1`, `k = 2` (coefficient `(2-3)^2 = 1`). -/
theorem correcteur_inflation_coefficients_temoin :
    (correcteur_inflation 3 1).1.getD 2 0 = (2 - 3) ^ 2 :=
  correcteur_inflation_coefficients 3 1 2 (by norm_num) (by norm_num)

/-- Model of `evaluer_strategies(mensualites, duree_de_simulation,
taux_de_rentabilite_annuel_placement, taux_annuel_general_credit, afficher,
taux_annuel_inflation)`, parametrised by the derived monthly rates
(`mPlacement` for the placement, `mCredit` for the credit) and inflation
coefficient `f`; the `afficher` flag only drives reporting collaborators and
is omitted.  Step 2 (`calculer_capital`) raises `ZeroDivisionError` when the
monthly credit rate is zero, so the whole call is modelled as `Option`. -/
def evaluer_strategies (mPlacement f mensualites : ℚ) (N : ℕ) (mCredit : ℚ) :
    Option (ℚ × ℚ × ℚ) :=
  let strat1 := calculer_interets_composes mPlacement f 0 mensualites N
  match calculer_capital mCredit mensualites N with
  | none => none
  | some capital =>
    let credit := simuler_credit mCredit f capital N
    let strat2 := calculer_interets_composes mPlacement f capital 0 N
    some (capital,
      strat1.interets.getLastD 0 + strat1.variation,
      strat2.interets.getLastD 0 - credit.cout + strat2.variation)

/-- Successful `evaluer_strategies` calls return exactly the composition of
the sub-computations (with Python `interets[-1]` read as `getLastD 0`). -/
lemma evaluer_eq (mP f p mC cap : ℚ) (N : ℕ)
    (hcap : calculer_capital mC p N = some cap) :
    evaluer_strategies mP f p N mC =
      some (cap,
        (calculer_interets_composes mP f 0 p N).interets.getLastD 0 +
          (calculer_interets_composes mP f 0 p N).variation,
        (calculer_interets_composes mP f cap 0 N).interets.getLastD 0 -
          (simuler_credit mC f cap N).cout +
          (calculer_interets_composes mP f cap 0 N).variation) := by
  simp only [evaluer_strategies, hcap]

/-- The last entry of the returned cumulated-interest series is the entry at
index `N - 1`. -/
lemma interets_getLastD (m f C c : ℚ) (N : ℕ) (hN : 1 ≤ N) :
    (calculer_interets_composes m f C c N).interets.getLastD 0 =
      (calculer_interets_composes m f C c N).interets.getD (N - 1) 0 := by
  obtain ⟨j, rfl⟩ : ∃ j, N = j + 1 := ⟨N - 1, by omega⟩
  rw [interets_eq]
  have hL :
      ((List.range (j + 1)).map (fun k => (suiteCapitalInterets m f C c k).2)).getLastD 0 =
        (suiteCapitalInterets m f C c j).2 := by
    rw [List.range_succ, List.map_append]
    simp
  rw [hL, getD_range_map (j + 1 - 1) _ 0 _ (by omega)]
  simp only [Nat.add_sub_cancel]

/-- C3 counterexample: at monthly credit rate 0 (annual credit rate 0) the
evaluator does not return a triple: step 2 (`calculer_capital`) raises
`ZeroDivisionError` (modelled as `none`). -/
theorem evaluer_strategies_contre_exemple :
    evaluer_strategies (1/100) 1 100 12 0 = none := by
  simp [evaluer_strategies, calculer_capital]

/-- C3 amended: for every nonzero monthly credit rate, `evaluer_strategies`
returns the triple (borrowed capital from `calculer_capital`; last entry of
the strategy-1 cumulative-interest series plus its inflation variation; last
entry of the strategy-2 cumulative-interest series minus the credit cost plus
its inflation variation). -/
theorem evaluer_strategies_composition (mP f p mC cap : ℚ) (N : ℕ)
    (hN : 1 ≤ N) (hC : mC ≠ 0) (hcap : calculer_capital mC p N = some cap) :
    evaluer_strategies mP f p N mC =
      some (cap,
        (calculer_interets_composes mP f 0 p N).interets.getD (N - 1) 0 +
          (calculer_interets_composes mP f 0 p N).variation,
        (calculer_interets_composes mP f cap 0 N).interets.getD (N - 1) 0 -
          (simuler_credit mC f cap N).cout +
          (calculer_interets_composes mP f cap 0 N).variation) := by
  rw [evaluer_eq mP f p mC cap N hcap, interets_getLastD mP f 0 p N hN,
    interets_getLastD mP f cap 0 N hN]

/-- Witness for C3 at `mP = 1`, `f = 1`, `p = 1`, `N = 1`, `mC = 1` (the
borrowed capital is `1/2`). -/
theorem evaluer_strategies_composition_temoin :
    evaluer_strategies 1 1 1 1 1 =
      some (1 * (1 - (1 + 1) ^ (-(1 : ℤ))) / 1,
        (calculer_interets_composes 1 1 0 1 1).interets.getD (1 - 1) 0 +
          (calculer_interets_composes 1 1 0 1 1).variation,
        (calculer_interets_composes 1 1 (1 * (1 - (1 + 1) ^ (-(1 : ℤ))) / 1) 0 1).interets.getD
            (1 - 1) 0 -
          (simuler_credit 1 1 (1 * (1 - (1 + 1) ^ (-(1 : ℤ))) / 1) 1).cout +
          (calculer_interets_composes 1 1 (1 * (1 - (1 + 1) ^ (-(1 : ℤ))) / 1) 0 1).variation) :=
  evaluer_strategies_composition 1 1 1 1 (1 * (1 - (1 + 1) ^ (-(1 : ℤ))) / 1) 1
    (by norm_num) (by norm_num)
    (by rw [calculer_capital, if_neg (by norm_num)]; norm_num)

/-- Python `int()` truncation toward zero. -/
def pyInt (q : ℚ) : ℤ := if 0 ≤ q then ⌊q⌋ else ⌈q⌉

/-- Truncation exceeds the value minus one. -/
lemma pyInt_lb (q : ℚ) : q - 1 < (pyInt q : ℚ) := by
  rw [pyInt]
  split
  · push_cast
    linarith [Int.lt_floor_add_one q]
  · push_cast
    linarith [Int.le_ceil q]

/-- Truncation stays below the value plus one. -/
lemma pyInt_ub (q : ℚ) : (pyInt q : ℚ) < q + 1 := by
  rw [pyInt]
  split
  · push_cast
    linarith [Int.floor_le q]
  · push_cast
    linarith [Int.ceil_lt_add_one q]

/-- Truncation of a nonnegative value rounds down. -/
lemma pyInt_le (q : ℚ) (h : 0 ≤ q) : (pyInt q : ℚ) ≤ q := by
  rw [pyInt, if_pos h]
  exact Int.floor_le q

/-- Truncation of a negative value rounds up. -/
lemma pyInt_ge (q : ℚ) (h : q < 0) : q ≤ (pyInt q : ℚ) := by
  rw [pyInt, if_neg (not_le.mpr h)]
  exact Int.le_ceil q

/-- An integer strictly between `-2` and `2` (read in `ℚ`) has absolute value
at most 1. -/
lemma int_abs_le_un (z : ℤ) (h1 : (z : ℚ) < 2) (h2 : (-2 : ℚ) < (z : ℚ)) : |z| ≤ 1 := by
  have hz1 : z < 2 := by exact_mod_cast h1
  have hz2 : (-2 : ℤ) < z := by exact_mod_cast h2
  rw [abs_le]
  omega

/-- Truncating a difference agrees with the difference of truncations up to
1. -/
lemma pyInt_diff (x y : ℚ) : |pyInt (x - y) - (pyInt x - pyInt y)| ≤ 1 := by
  have lbxy := pyInt_lb (x - y)
  have ubxy := pyInt_ub (x - y)
  have lbx := pyInt_lb x
  have ubx := pyInt_ub x
  have lby := pyInt_lb y
  have uby := pyInt_ub y
  rcases le_or_lt 0 (x - y) with h1 | h1
  · rcases le_or_lt 0 x with h2 | h2
    · rcases le_or_lt 0 y with h3 | h3
      · refine int_abs_le_un _ ?_ ?_ <;> push_cast <;>
          linarith [pyInt_le (x - y) h1, pyInt_le x h2, pyInt_le y h3]
      · refine int_abs_le_un _ ?_ ?_ <;> push_cast <;>
          linarith [pyInt_le (x - y) h1, pyInt_le x h2, pyInt_ge y h3]
    · rcases le_or_lt 0 y with h3 | h3
      · refine int_abs_le_un _ ?_ ?_ <;> push_cast <;>
          linarith [pyInt_le (x - y) h1, pyInt_ge x h2, pyInt_le y h3]
      · refine int_abs_le_un _ ?_ ?_ <;> push_cast <;>
          linarith [pyInt_le (x - y) h1, pyInt_ge x h2, pyInt_ge y h3]
  · rcases le_or_lt 0 x with h2 | h2
    · rcases le_or_lt 0 y with h3 | h3
      · refine int_abs_le_un _ ?_ ?_ <;> push_cast <;>
          linarith [pyInt_ge (x - y) h1, pyInt_le x h2, pyInt_le y h3]
      · refine int_abs_le_un _ ?_ ?_ <;> push_cast <;>
          linarith [pyInt_ge (x - y) h1, pyInt_le x h2, pyInt_ge y h3]
    · rcases le_or_lt 0 y with h3 | h3
      · refine int_abs_le_un _ ?_ ?_ <;> push_cast <;>
          linarith [pyInt_ge (x - y) h1, pyInt_ge x h2, pyInt_le y h3]
      · refine int_abs_le_un _ ?_ ?_ <;> push_cast <;>
          linarith [pyInt_ge (x - y) h1, pyInt_ge x h2, pyInt_ge y h3]

/-- Inner loop of `comparer_strategies_selon_rentabilite_et_credit`: one row
(fixed return rate `mP`), sweeping the credit-rate list and appending the
truncated advantage, net benefit 2 and benefit 1 of each evaluator call.  A
`ZeroDivisionError` inside `evaluer_strategies` aborts the whole sweep
(`none`). -/
def comparerLigne (mP f p : ℚ) (N : ℕ) : List ℚ → Option (List ℤ × List ℤ × List ℤ)
  | [] => some ([], [], [])
  | mC :: reste =>
    match evaluer_strategies mP f p N mC with
    | none => none
    | some (_, benef_strat1, benef_strat2) =>
      match comparerLigne mP f p N reste with
      | none => none
      | some (avantage, nets2, bens1) =>
        some (pyInt (benef_strat2 - benef_strat1) :: avantage,
          pyInt benef_strat2 :: nets2, pyInt benef_strat1 :: bens1)

/-- Outer loop of `comparer_strategies_selon_rentabilite_et_credit`: one row
per return rate. -/
def comparerLignes (p : ℚ) (N : ℕ) (f : ℚ) (liste_credit : List ℚ) :
    List ℚ → Option (List (List ℤ) × List (List ℤ) × List (List ℤ))
  | [] => some ([], [], [])
  | mP :: reste =>
    match comparerLigne mP f p N liste_credit with
    | none => none
    | some (av, n2, b1) =>
      match comparerLignes p N f liste_credit reste with
      | none => none
      | some (avs, n2s, b1s) => some (av :: avs, n2 :: n2s, b1 :: b1s)

/-- Model of `comparer_strategies_selon_rentabilite_et_credit(mensualite,
duree_de_simulation, liste_taux_de_rentatibilite_annuel_placement,
liste_taux_general_credit, taux_inflation_annuel)`, parametrised by the
monthly equivalents of the listed rates; returns the matrices
(avantage_strat2, benefices_nets_strat2, benefices_strat1). -/
def comparer_strategies_selon_rentabilite_et_credit (p : ℚ) (N : ℕ)
    (liste_rentabilite liste_credit : List ℚ) (f : ℚ) :
    Option (List (List ℤ) × List (List ℤ) × List (List ℤ)) :=
  comparerLignes p N f liste_credit liste_rentabilite

/-- First net benefit of an evaluator result (0 if the call failed; only read
under hypotheses ruling failure out). -/
def benef1De (o : Option (ℚ × ℚ × ℚ)) : ℚ := (o.getD (0, 0, 0)).2.1

/-- Second net benefit of an evaluator result (0 if the call failed; only
read under hypotheses ruling failure out). -/
def benef2De (o : Option (ℚ × ℚ × ℚ)) : ℚ := (o.getD (0, 0, 0)).2.2

/-- Row of truncated advantages for a fixed return rate. -/
def ligneAvantage (f p : ℚ) (N : ℕ) (Cs : List ℚ) (mP : ℚ) : List ℤ :=
  Cs.map fun mC =>
    pyInt (benef2De (evaluer_strategies mP f p N mC) -
      benef1De (evaluer_strategies mP f p N mC))

/-- Row of truncated second net benefits for a fixed return rate. -/
def ligneBenefNet2 (f p : ℚ) (N : ℕ) (Cs : List ℚ) (mP : ℚ) : List ℤ :=
  Cs.map fun mC => pyInt (benef2De (evaluer_strategies mP f p N mC))

/-- Row of truncated first benefits for a fixed return rate. -/
def ligneBenef1 (f p : ℚ) (N : ℕ) (Cs : List ℚ) (mP : ℚ) : List ℤ :=
  Cs.map fun mC => pyInt (benef1De (evaluer_strategies mP f p N mC))

/-- Expected advantage matrix of the sweep. -/
def matriceAvantage (p f : ℚ) (N : ℕ) (R Cs : List ℚ) : List (List ℤ) :=
  R.map (ligneAvantage f p N Cs)

/-- Expected net-benefit-2 matrix of the sweep. -/
def matriceBenefNet2 (p f : ℚ) (N : ℕ) (R Cs : List ℚ) : List (List ℤ) :=
  R.map (ligneBenefNet2 f p N Cs)

/-- Expected benefit-1 matrix of the sweep. -/
def matriceBenef1 (p f : ℚ) (N : ℕ) (R Cs : List ℚ) : List (List ℤ) :=
  R.map (ligneBenef1 f p N Cs)

/-- A nonzero monthly credit rate makes the evaluator succeed, returning its
own recorded net benefits. -/
lemma evaluer_benefs (mP f p mC : ℚ) (N : ℕ) (hC : mC ≠ 0) :
    evaluer_strategies mP f p N mC =
      some (p * (1 - (1 + mC) ^ (-(N : ℤ))) / mC,
        benef1De (evaluer_strategies mP f p N mC),
        benef2De (evaluer_strategies mP f p N mC)) := by
  have hcap : calculer_capital mC p N = some (p * (1 - (1 + mC) ^ (-(N : ℤ))) / mC) := by
    rw [calculer_capital, if_neg hC]
  rw [evaluer_eq mP f p mC _ N hcap]
  simp [benef1De, benef2De]

/-- Characterisation of one sweep row when every credit rate is nonzero. -/
lemma comparerLigne_eq (mP f p : ℚ) (N : ℕ) :
    ∀ Cs : List ℚ, (∀ mC ∈ Cs, mC ≠ 0) →
      comparerLigne mP f p N Cs =
        some (ligneAvantage f p N Cs mP, ligneBenefNet2 f p N Cs mP,
          ligneBenef1 f p N Cs mP) := by
  intro Cs
  induction Cs with
  | nil => intro _; rfl
  | cons mC reste ih =>
    intro hne
    have hmc : mC ≠ 0 := hne mC (by simp)
    rw [comparerLigne, evaluer_benefs mP f p mC N hmc,
      ih (fun c hc => hne c (by simp [hc]))]
    simp [ligneAvantage, ligneBenefNet2, ligneBenef1]

/-- Characterisation of the full sweep when every credit rate is nonzero. -/
lemma comparerLignes_eq (p f : ℚ) (N : ℕ) (Cs : List ℚ)
    (hC : ∀ mC ∈ Cs, mC ≠ 0) :
    ∀ R : List ℚ,
      comparerLignes p N f Cs R =
        some (matriceAvantage p f N R Cs, matriceBenefNet2 p f N R Cs,
          matriceBenef1 p f N R Cs) := by
  intro R
  induction R with
  | nil => rfl
  | cons mP reste ih =>
    rw [comparerLignes, comparerLigne_eq mP f p N Cs hC, ih]
    simp [matriceAvantage, matriceBenefNet2, matriceBenef1]

/-- Entry of a mapped list at an in-range index, any defaults. -/
lemma getD_map_liste {α β : Type} (g : α → β) (d : α) (e : β) :
    ∀ (l : List α) (i : ℕ), i < l.length → (l.map g).getD i e = g (l.getD i d) := by
  intro l
  induction l with
  | nil => intro i hi; simp at hi
  | cons a t ih =>
    intro i hi
    cases i with
    | zero => rfl
    | succ j =>
      simp only [List.map_cons, List.getD_cons_succ]
      exact ih j (by simpa using hi)

/-- C9 counterexample: with a credit-rate list containing the zero monthly
rate (annual rate 0), the sweep does not return matrices — the first
evaluator call raises `ZeroDivisionError` (modelled as `none`). -/
theorem comparer_strategies_contre_exemple :
    comparer_strategies_selon_rentabilite_et_credit 100 2 [1/100] [0] 1 = none := by
  simp [comparer_strategies_selon_rentabilite_et_credit, comparerLignes, comparerLigne,
    evaluer_strategies, calculer_capital]

/-- C9 amended: when every listed credit rate has a nonzero monthly
equivalent, the sweep returns three `len(R) × len(Cs)` matrices whose entries
are the evaluator results truncated toward zero, and each stored advantage
differs from `netBenefit2 - benefit1` (as stored) by at most 1. -/
theorem comparer_strategies_matrices (p f : ℚ) (N : ℕ) (R Cs : List ℚ)
    (hN : 1 ≤ N) (hR : R ≠ []) (hCs : Cs ≠ []) (hCne : ∀ mC ∈ Cs, mC ≠ 0) :
    comparer_strategies_selon_rentabilite_et_credit p N R Cs f =
      some (matriceAvantage p f N R Cs, matriceBenefNet2 p f N R Cs,
        matriceBenef1 p f N R Cs) ∧
    (matriceAvantage p f N R Cs).length = R.length ∧
    (matriceBenefNet2 p f N R Cs).length = R.length ∧
    (matriceBenef1 p f N R Cs).length = R.length ∧
    (∀ i, i < R.length →
      ((matriceAvantage p f N R Cs).getD i []).length = Cs.length ∧
      ((matriceBenefNet2 p f N R Cs).getD i []).length = Cs.length ∧
      ((matriceBenef1 p f N R Cs).getD i []).length = Cs.length ∧
      (∀ j, j < Cs.length →
        ((matriceAvantage p f N R Cs).getD i []).getD j 0 =
          pyInt (benef2De (evaluer_strategies (R.getD i 0) f p N (Cs.getD j 0)) -
            benef1De (evaluer_strategies (R.getD i 0) f p N (Cs.getD j 0))) ∧
        ((matriceBenefNet2 p f N R Cs).getD i []).getD j 0 =
          pyInt (benef2De (evaluer_strategies (R.getD i 0) f p N (Cs.getD j 0))) ∧
        ((matriceBenef1 p f N R Cs).getD i []).getD j 0 =
          pyInt (benef1De (evaluer_strategies (R.getD i 0) f p N (Cs.getD j 0))) ∧
        |((matriceAvantage p f N R Cs).getD i []).getD j 0 -
            (((matriceBenefNet2 p f N R Cs).getD i []).getD j 0 -
              ((matriceBenef1 p f N R Cs).getD i []).getD j 0)| ≤ 1)) := by
  have hrowAv : ∀ i, i < R.length →
      (matriceAvantage p f N R Cs).getD i [] = ligneAvantage f p N Cs (R.getD i 0) :=
    fun i hi => getD_map_liste _ 0 [] R i hi
  have hrowN2 : ∀ i, i < R.length →
      (matriceBenefNet2 p f N R Cs).getD i [] = ligneBenefNet2 f p N Cs (R.getD i 0) :=
    fun i hi => getD_map_liste _ 0 [] R i hi
  have hrowB1 : ∀ i, i < R.length →
      (matriceBenef1 p f N R Cs).getD i [] = ligneBenef1 f p N Cs (R.getD i 0) :=
    fun i hi => getD_map_liste _ 0 [] R i hi
  refine ⟨comparerLignes_eq p f N Cs hCne R, by simp [matriceAvantage],
    by simp [matriceBenefNet2], by simp [matriceBenef1], ?_⟩
  intro i hi
  rw [hrowAv i hi, hrowN2 i hi, hrowB1 i hi]
  refine ⟨by simp [ligneAvantage], by simp [ligneBenefNet2], by simp [ligneBenef1], ?_⟩
  intro j hj
  simp only [ligneAvantage, ligneBenefNet2, ligneBenef1]
  rw [getD_map_liste _ (0 : ℚ) (0 : ℤ) Cs j hj, getD_map_liste _ (0 : ℚ) (0 : ℤ) Cs j hj,
    getD_map_liste _ (0 : ℚ) (0 : ℤ) Cs j hj]
  exact ⟨rfl, rfl, rfl, pyInt_diff _ _⟩

/-- Witness for C9 at `p = 1`, `N = 1`, one return rate `1`, one credit rate
`1`, `f = 1`. -/
theorem comparer_strategies_matrices_temoin :
    comparer_strategies_selon_rentabilite_et_credit 1 1 [1] [1] 1 =
      some (matriceAvantage 1 1 1 [1] [1], matriceBenefNet2 1 1 1 [1] [1],
        matriceBenef1 1 1 1 [1] [1]) ∧
    (matriceAvantage 1 1 1 [1] [1]).length = [(1 : ℚ)].length ∧
    (matriceBenefNet2 1 1 1 [1] [1]).length = [(1 : ℚ)].length ∧
    (matriceBenef1 1 1 1 [1] [1]).length = [(1 : ℚ)].length ∧
    (∀ i, i < [(1 : ℚ)].length →
      ((matriceAvantage 1 1 1 [1] [1]).getD i []).length = [(1 : ℚ)].length ∧
      ((matriceBenefNet2 1 1 1 [1] [1]).getD i []).length = [(1 : ℚ)].length ∧
      ((matriceBenef1 1 1 1 [1] [1]).getD i []).length = [(1 : ℚ)].length ∧
      (∀ j, j < [(1 : ℚ)].length →
        ((matriceAvantage 1 1 1 [1] [1]).getD i []).getD j 0 =
          pyInt (benef2De (evaluer_strategies ([(1 : ℚ)].getD i 0) 1 1 1
              ([(1 : ℚ)].getD j 0)) -
            benef1De (evaluer_strategies ([(1 : ℚ)].getD i 0) 1 1 1
              ([(1 : ℚ)].getD j 0))) ∧
        ((matriceBenefNet2 1 1 1 [1] [1]).getD i []).getD j 0 =
          pyInt (benef2De (evaluer_strategies ([(1 : ℚ)].getD i 0) 1 1 1
            ([(1 : ℚ)].getD j 0))) ∧
        ((matriceBenef1 1 1 1 [1] [1]).getD i []).getD j 0 =
          pyInt (benef1De (evaluer_strategies ([(1 : ℚ)].getD i 0) 1 1 1
            ([(1 : ℚ)].getD j 0))) ∧
        |((matriceAvantage 1 1 1 [1] [1]).getD i []).getD j 0 -
            (((matriceBenefNet2 1 1 1 [1] [1]).getD i []).getD j 0 -
              ((matriceBenef1 1 1 1 [1] [1]).getD i []).getD j 0)| ≤ 1)) :=
  comparer_strategies_matrices 1 1 1 [1] [1] (by norm_num)
    (List.cons_ne_nil 1 []) (List.cons_ne_nil 1 [])
    (by
      intro mC hmc
      rw [List.mem_singleton] at hmc
      subst hmc
      norm_num)

end OutilsFinance
